import Mathlib

/-!
Shallow embedding of the control/event-dispatch core of `src/Reverse/main.cpp`
(a minimal retained-mode widget layer: Control base class, ControlContainer
dispatch, Label / TextBox / Button concrete controls, and the `UserInterface`
wiring that mirrors a TextBox into a Label reversed).

Modelling conventions:
* `D2D1_RECT_F` fields are IEEE floats in the source; every coordinate the
  program manipulates is integral, so rectangle fields are embedded as `Rat`
  (exact values of the floats used).  `D2D1_POINT_2U` coordinates are
  unsigned integers, embedded as `Nat` and cast to `Rat` for the comparisons
  in `PointInRectangle`.
* `std::function` callbacks (`_clickEvent`, `_changeEvent`) are embedded as a
  small closed type `Callback`: the default no-op lambda `[](){}` and the one
  user callback the program installs (`UserInterface`'s lambda that writes the
  reverse of the TextBox text into the Label).  A callback acts on the whole
  control registry, as in the source.
* The registry (`ControlContainer::_controls`, a `std::vector<Control*>`) is a
  `List Control`; dispatch loops become structural recursion over the list,
  threading the registry state where the source's callbacks can observe it.
* Hook invocations (virtual-method calls and callback firings) are recorded in
  an event trace (`List Ev`) alongside the state, so that "fires exactly
  once" style properties are provable.
-/

/-- Rectangle, embedding `D2D1_RECT_F` (fields `left`, `top`, `right`,
`bottom`). -/
structure Rect where
  left : Rat
  top : Rat
  right : Rat
  bottom : Rat
deriving DecidableEq, Repr

/-- Point, embedding `D2D1_POINT_2U` (unsigned coordinates). -/
structure Point where
  x : Nat
  y : Nat
deriving DecidableEq, Repr

/-- Embeds `PointInRectangle` (main.cpp:16-21): strict comparisons on all four
edges. -/
def PointInRectangle (rectangle : Rect) (point : Point) : Bool :=
  rectangle.top < (point.y : Rat)
    && rectangle.bottom > (point.y : Rat)
    && rectangle.left < (point.x : Rat)
    && rectangle.right > (point.x : Rat)

/-- The dynamic type of a control: base `Control` behaviour is shared; `Label`
and `TextBox` carry text, and `TextBox` overrides `OnChar` / `OnKeyDown`. -/
inductive Kind where
  | button
  | label
  | textBox
deriving DecidableEq, Repr

/-- A user callback (`std::function<void()>`).  `Callback.none` is the default
no-op lambda installed at construction (main.cpp:76-77); `reverseInto src dst`
is the lambda installed by `UserInterface` (main.cpp:265-269), which sets
control `dst`'s text to the reverse of control `src`'s text. -/
inductive Callback where
  | none
  | reverseInto (src dst : Nat)
deriving DecidableEq, Repr

/-- A registered control: the `Control` base state (main.cpp:70-77) plus the
`_text` member of `Label` / `TextBox` (unused by `Button`). -/
structure Control where
  kind : Kind
  area : Rect
  onHover : Bool
  onClick : Bool
  onFocus : Bool
  text : List Char
  clickEvent : Callback
  changeEvent : Callback
deriving DecidableEq, Repr

instance : Inhabited Control :=
  ⟨⟨Kind.button, ⟨0, 0, 0, 0⟩, false, false, false, [], Callback.none, Callback.none⟩⟩

/-- Construction of a control (`Control::Control`, main.cpp:181-184, plus the
member initialisers at main.cpp:72-77): flags false, callbacks the no-op
default; `Label`'s constructor may set an initial text (main.cpp:209-211),
`TextBox`'s text starts empty. -/
def newControl (kind : Kind) (area : Rect) (text : List Char := []) : Control :=
  { kind := kind, area := area, onHover := false, onClick := false,
    onFocus := false, text := text, clickEvent := Callback.none,
    changeEvent := Callback.none }

/-- The registry (`ControlContainer::_controls`), in insertion order. -/
abbrev Registry := List Control

/-- The control at index `j` (default-valued out of range, used only to keep
statements non-dependent). -/
def ctl (s : Registry) (j : Nat) : Control := (s[j]?).getD default

/-- Running a callback on the registry.  The default no-op does nothing;
`reverseInto src dst` performs `output->Text(reverse(input->Text()))`
(main.cpp:265-269). -/
def runCallback : Callback → Registry → Registry
  | Callback.none, s => s
  | Callback.reverseInto src dst, s =>
      match s[src]? with
      | Option.none => s
      | Option.some c =>
          match s[dst]? with
          | Option.none => s
          | Option.some d => s.set dst { d with text := c.text.reverse }

/-- Trace events: each records one virtual-hook invocation or one user-callback
firing on the control at the given registry index. -/
inductive Ev where
  | enter (i : Nat)
  | leaveHover (i : Nat)
  | clickDown (i : Nat)
  | focusGained (i : Nat)
  | focusLost (i : Nat)
  | charTo (i : Nat)
  | keyTo (i : Nat)
  | clickFired (i : Nat)
  | changeFired (i : Nat)
  | painted (i : Nat)
deriving DecidableEq, Repr

/-- The backspace character `'\b'` compared against in `TextBox::OnChar`
(main.cpp:233). -/
def backspaceChar : Char := Char.ofNat 8

/-- The `VK_BACK` virtual-key code compared against in `TextBox::OnKeyDown`
(main.cpp:239). -/
def VK_BACK : Nat := 8

/-- Virtual `OnChar` (base no-op, main.cpp:192; `TextBox` override,
main.cpp:232-237).  Returns the updated control and how many times it invoked
`_changeEvent()`. -/
def Control.onCharV (c : Control) (ch : Char) : Control × Nat :=
  match c.kind with
  | Kind.textBox =>
      if ch ≠ backspaceChar then ({ c with text := c.text ++ [ch] }, 1)
      else (c, 0)
  | _ => (c, 0)

/-- Virtual `OnKeyDown` (base no-op, main.cpp:191; `TextBox` override,
main.cpp:238-243).  Returns the updated control and how many times it invoked
`_changeEvent()`. -/
def Control.onKeyDownV (c : Control) (key : Nat) : Control × Nat :=
  match c.kind with
  | Kind.textBox =>
      if key = VK_BACK ∧ c.text ≠ [] then ({ c with text := c.text.dropLast }, 1)
      else (c, 0)
  | _ => (c, 0)

/-- One step of `ControlContainer::OnHover`'s loop body for a single control
(main.cpp:123-131): enter when inside and not yet hovered, leave when outside
and hovered.  Events are returned as functions of the control's index. -/
def hoverStep (p : Point) (c : Control) : Control × List (Nat → Ev) :=
  if PointInRectangle c.area p then
    if c.onHover then (c, [])
    else ({ c with onHover := true }, [Ev.enter])
  else
    if c.onHover then ({ c with onHover := false }, [Ev.leaveHover])
    else (c, [])

/-- One step of `ControlContainer::OnClick`'s loop body for a single control
(main.cpp:135-142): inside → `OnClick` then `OnFocus`; outside and focused →
`LeaveFocus`. -/
def clickStep (p : Point) (c : Control) : Control × List (Nat → Ev) :=
  if PointInRectangle c.area p then
    ({ c with onClick := true, onFocus := true }, [Ev.clickDown, Ev.focusGained])
  else
    if c.onFocus then ({ c with onFocus := false }, [Ev.focusLost])
    else (c, [])

/-- A full scan of the registry applying a per-control step, collecting the
trace with absolute indices (these loop bodies touch only the current control
and fire no user callback, matching main.cpp:122-143). -/
def scanAll (f : Control → Control × List (Nat → Ev)) :
    Registry → Nat → Registry × List Ev
  | [], _ => ([], [])
  | c :: cs, i =>
      let r := f c
      let rest := scanAll f cs (i + 1)
      (r.1 :: rest.1, r.2.map (fun g => g i) ++ rest.2)

/-- `ControlContainer::OnHover(x, y)` (main.cpp:122-132). -/
def containerOnHover (s : Registry) (x y : Nat) : Registry × List Ev :=
  scanAll (hoverStep ⟨x, y⟩) s 0

/-- `ControlContainer::OnClick(x, y)` (main.cpp:134-143). -/
def containerOnClick (s : Registry) (x y : Nat) : Registry × List Ev :=
  scanAll (clickStep ⟨x, y⟩) s 0

/-- The scan for the first focused control, with its absolute index
(`for (auto control : _controls) if (control->IsFocused()) { ...; break; }`,
main.cpp:144-159). -/
def firstFocusedIdx : Registry → Nat → Option Nat
  | [], _ => Option.none
  | c :: cs, i => if c.onFocus then Option.some i else firstFocusedIdx cs (i + 1)

/-- `ControlContainer::OnChar(ch)` (main.cpp:144-151): deliver to the first
focused control and stop; if its `OnChar` invoked `_changeEvent()`, the
callback runs on the registry. -/
def containerOnChar (s : Registry) (ch : Char) : Registry × List Ev :=
  match firstFocusedIdx s 0 with
  | Option.none => (s, [])
  | Option.some i =>
      match s[i]? with
      | Option.none => (s, [])
      | Option.some c =>
          let r := Control.onCharV c ch
          let s1 := s.set i r.1
          if r.2 = 0 then (s1, [Ev.charTo i])
          else (runCallback c.changeEvent s1, [Ev.charTo i, Ev.changeFired i])

/-- `ControlContainer::OnKeyDown(key)` (main.cpp:152-159). -/
def containerOnKeyDown (s : Registry) (key : Nat) : Registry × List Ev :=
  match firstFocusedIdx s 0 with
  | Option.none => (s, [])
  | Option.some i =>
      match s[i]? with
      | Option.none => (s, [])
      | Option.some c =>
          let r := Control.onKeyDownV c key
          let s1 := s.set i r.1
          if r.2 = 0 then (s1, [Ev.keyTo i])
          else (runCallback c.changeEvent s1, [Ev.keyTo i, Ev.changeFired i])

/-- The loop of `ControlContainer::LeaveClick` (main.cpp:161-167), iterating
index `i` with `k` controls left to visit; each clicked control's
`Control::LeaveClick` (main.cpp:193) clears `_onClick` and invokes
`_clickEvent()`, which may mutate the registry, so the state is threaded. -/
def leaveClickLoop : Registry → Nat → Nat → Registry × List Ev
  | s, _, 0 => (s, [])
  | s, i, k + 1 =>
      match s[i]? with
      | Option.none => (s, [])
      | Option.some c =>
          if c.onClick then
            let s2 := runCallback c.clickEvent (s.set i { c with onClick := false })
            let rest := leaveClickLoop s2 (i + 1) k
            (rest.1, Ev.clickFired i :: rest.2)
          else
            leaveClickLoop s (i + 1) k

/-- `ControlContainer::LeaveClick()` (main.cpp:161-167). -/
def containerLeaveClick (s : Registry) : Registry × List Ev :=
  leaveClickLoop s 0 s.length

/-- `ControlContainer::Paint()` (main.cpp:169-173): visit every control in
insertion order and call its virtual `Paint`; the trace records each
invocation. -/
def paintGo : Registry → Nat → List Ev
  | [], _ => []
  | _ :: cs, i => Ev.painted i :: paintGo cs (i + 1)

def containerPaint (s : Registry) : List Ev := paintGo s 0

/-- A raw input event fed by the window procedure (main.cpp:340-354). -/
inductive Event where
  | move (x y : Nat)
  | down (x y : Nat)
  | up
  | char (ch : Char)
  | keyDown (key : Nat)
deriving DecidableEq, Repr

/-- One dispatched event's effect on the registry (the state component of the
corresponding container handler). -/
def dispatch (s : Registry) : Event → Registry
  | Event.move x y => (containerOnHover s x y).1
  | Event.down x y => (containerOnClick s x y).1
  | Event.up => (containerLeaveClick s).1
  | Event.char ch => (containerOnChar s ch).1
  | Event.keyDown key => (containerOnKeyDown s key).1

/-- Dispatching a sequence of events. -/
def run (s : Registry) (es : List Event) : Registry := es.foldl dispatch s

/-- Two controls equal in every field except possibly `text`. -/
def EqExceptText (c c' : Control) : Prop :=
  c'.kind = c.kind ∧ c'.area = c.area ∧ c'.onHover = c.onHover
    ∧ c'.onClick = c.onClick ∧ c'.onFocus = c.onFocus
    ∧ c'.clickEvent = c.clickEvent ∧ c'.changeEvent = c.changeEvent

/-- `j` is the index of the first control in insertion order whose focused
flag is set. -/
def FirstFocused (s : Registry) (j : Nat) : Prop :=
  j < s.length ∧ (ctl s j).onFocus = true ∧ ∀ k, k < j → (ctl s k).onFocus = false

instance (s : Registry) (j : Nat) : Decidable (FirstFocused s j) :=
  inferInstanceAs (Decidable (_ ∧ _ ∧ _))

/-- No point lies strictly inside the bounds of two distinct registered
controls. -/
def DisjointBounds (s : Registry) : Prop :=
  ∀ (i j : Nat) (p : Point), i < s.length → j < s.length → i ≠ j →
    ¬(PointInRectangle (ctl s i).area p = true
      ∧ PointInRectangle (ctl s j).area p = true)

/-- At most one registered control has its focused flag set. -/
def AtMostOneFocused (s : Registry) : Prop :=
  ∀ (i j : Nat), i < s.length → j < s.length →
    (ctl s i).onFocus = true → (ctl s j).onFocus = true → i = j

/-! ## The UserInterface wiring (main.cpp:262-270) -/

/-- The registry right after `UserInterface()` runs: the TextBox `input`
registers first (index 0), the Label `output` second (index 1), and
`input->WhenChange` installs the reverse-into-label callback. -/
def uiInit : Registry :=
  [{ newControl Kind.textBox ⟨20, 20, 150, 50⟩ with
      changeEvent := Callback.reverseInto 0 1 },
    newControl Kind.label ⟨20, 60, 150, 85⟩]

/-- The shape of every UI state reachable by keyboard edits once the TextBox
has been clicked: the TextBox (pressed and focused, text `t`, reverse
callback) and the Label showing `t` reversed. -/
def uiShape (t : List Char) : Registry :=
  [{ newControl Kind.textBox ⟨20, 20, 150, 50⟩ with
      onClick := true, onFocus := true, text := t,
      changeEvent := Callback.reverseInto 0 1 },
    { newControl Kind.label ⟨20, 60, 150, 85⟩ with text := t.reverse }]

/-- The state after clicking inside the TextBox at (30, 30). -/
def uiFocused : Registry := dispatch uiInit (Event.down 30 30)

/-- Character / backspace edit events (the keyboard side of the host feed). -/
def isEdit : Event → Bool
  | Event.char _ => true
  | Event.keyDown _ => true
  | _ => false

/-! ## Basic lemmas about the registry accessors -/

lemma eqExceptText_refl (c : Control) : EqExceptText c c :=
  ⟨rfl, rfl, rfl, rfl, rfl, rfl, rfl⟩

lemma ctl_of_getElem? {s : Registry} {j : Nat} {c : Control}
    (h : s[j]? = Option.some c) : ctl s j = c := by
  simp [ctl, h]

lemma ctl_set_self {s : Registry} {j : Nat} (h : j < s.length) (a : Control) :
    ctl (s.set j a) j = a := by
  simp [ctl, List.getElem?_set_self h]

lemma ctl_set_ne {s : Registry} {i j : Nat} (h : i ≠ j) (a : Control) :
    ctl (s.set i a) j = ctl s j := by
  simp [ctl, List.getElem?_set_ne h]

lemma runCallback_length (cb : Callback) (s : Registry) :
    (runCallback cb s).length = s.length := by
  cases cb with
  | none => rfl
  | reverseInto src dst =>
      simp only [runCallback]
      cases hsrc : s[src]? with
      | none => rfl
      | some c =>
          cases hdst : s[dst]? with
          | none => rfl
          | some d => simp

/-- A callback can change only `text` fields: every other field of every
control is preserved. -/
lemma ctl_runCallback (cb : Callback) (s : Registry) (j : Nat) :
    EqExceptText (ctl s j) (ctl (runCallback cb s) j) := by
  cases cb with
  | none => exact eqExceptText_refl _
  | reverseInto src dst =>
      simp only [runCallback]
      cases hsrc : s[src]? with
      | none => exact eqExceptText_refl _
      | some c =>
          cases hdst : s[dst]? with
          | none => exact eqExceptText_refl _
          | some d =>
              by_cases hj : dst = j
              · subst hj
                have hlt : dst < s.length := by
                  by_contra hge
                  simp [List.getElem?_eq_none (Nat.le_of_not_lt hge)] at hdst
                rw [ctl_set_self hlt, ctl_of_getElem? hdst]
                exact ⟨rfl, rfl, rfl, rfl, rfl, rfl, rfl⟩
              · rw [ctl_set_ne hj]
                exact eqExceptText_refl _

/-- A callback never touches the flags or the shape of the registry. -/
lemma runCallback_onFocus (cb : Callback) (s : Registry) (j : Nat) :
    (ctl (runCallback cb s) j).onFocus = (ctl s j).onFocus :=
  (ctl_runCallback cb s j).2.2.2.2.1

lemma runCallback_onClick (cb : Callback) (s : Registry) (j : Nat) :
    (ctl (runCallback cb s) j).onClick = (ctl s j).onClick :=
  (ctl_runCallback cb s j).2.2.2.1

/-- `scanAll` updates each control independently with the pure step. -/
lemma scanAll_fst (f : Control → Control × List (Nat → Ev)) :
    ∀ (l : Registry) (i : Nat), (scanAll f l i).1 = l.map (fun c => (f c).1)
  | [], _ => rfl
  | c :: cs, i => by
      simp [scanAll, scanAll_fst f cs (i + 1)]

lemma scanAll_length (f : Control → Control × List (Nat → Ev))
    (l : Registry) (i : Nat) : (scanAll f l i).1.length = l.length := by
  simp [scanAll_fst]

lemma ctl_scanAll (f : Control → Control × List (Nat → Ev))
    (l : Registry) (i j : Nat) (hj : j < l.length) :
    ctl (scanAll f l i).1 j = (f (ctl l j)).1 := by
  simp [scanAll_fst, ctl, List.getElem?_eq_getElem hj, List.getElem?_map]

lemma ctl_cons_zero (c : Control) (cs : Registry) : ctl (c :: cs) 0 = c := by
  simp [ctl]

lemma ctl_cons_succ (c : Control) (cs : Registry) (d : Nat) :
    ctl (c :: cs) (d + 1) = ctl cs d := by
  simp [ctl]

/-- Counting events in a `scanAll` trace below the start index: none occur. -/
lemma scanAll_count_lt (f : Control → Control × List (Nat → Ev)) (e : Nat → Ev)
    (hmiss : ∀ (c : Control) (k j : Nat), j ≠ k →
      ((((f c).2).map (fun g => g k)).count (e j)) = 0) :
    ∀ (l : Registry) (i j : Nat), j < i →
      ((scanAll f l i).2).count (e j) = 0 := by
  intro l
  induction l with
  | nil => intro i j _; rfl
  | cons c cs ih =>
      intro i j h
      simp only [scanAll, List.count_append]
      rw [ih (i + 1) j (by omega), hmiss c i j (by omega)]

/-- Counting events in a `scanAll` trace: the count for the control at offset
`d` is determined by that control alone. -/
lemma scanAll_count_of (f : Control → Control × List (Nat → Ev)) (e : Nat → Ev)
    (cnt : Control → Nat)
    (hhead : ∀ (c : Control) (k : Nat),
      ((((f c).2).map (fun g => g k)).count (e k)) = cnt c)
    (hmiss : ∀ (c : Control) (k j : Nat), j ≠ k →
      ((((f c).2).map (fun g => g k)).count (e j)) = 0) :
    ∀ (l : Registry) (i d : Nat), d < l.length →
      ((scanAll f l i).2).count (e (i + d)) = cnt (ctl l d) := by
  intro l
  induction l with
  | nil => intro i d hd; exact absurd hd (by simp)
  | cons c cs ih =>
      intro i d hd
      simp only [scanAll, List.count_append]
      cases d with
      | zero =>
          rw [Nat.add_zero, hhead c i,
            scanAll_count_lt f e hmiss cs (i + 1) i (by omega), ctl_cons_zero]
          omega
      | succ d' =>
          rw [hmiss c i (i + (d' + 1)) (by omega), ctl_cons_succ]
          have : i + (d' + 1) = (i + 1) + d' := by omega
          rw [this, ih (i + 1) d' (by simpa using hd)]
          omega

/-! ## Pointer-move (hover) dispatch -/

lemma hoverStep_onHover (p : Point) (c : Control) :
    (hoverStep p c).1.onHover = PointInRectangle c.area p := by
  cases hin : PointInRectangle c.area p <;> cases hh : c.onHover <;>
    simp [hoverStep, hin, hh]

lemma hoverStep_count_enter (p : Point) (c : Control) (k : Nat) :
    (((hoverStep p c).2).map (fun g => g k)).count (Ev.enter k) =
      if PointInRectangle c.area p = true ∧ c.onHover = false then 1 else 0 := by
  cases hin : PointInRectangle c.area p <;> cases hh : c.onHover <;>
    simp [hoverStep, hin, hh]

lemma hoverStep_count_enter_ne (p : Point) (c : Control) (k j : Nat)
    (h : j ≠ k) :
    (((hoverStep p c).2).map (fun g => g k)).count (Ev.enter j) = 0 := by
  cases hin : PointInRectangle c.area p <;> cases hh : c.onHover <;>
    simp [hoverStep, hin, hh, h]

lemma hoverStep_count_leave (p : Point) (c : Control) (k : Nat) :
    (((hoverStep p c).2).map (fun g => g k)).count (Ev.leaveHover k) =
      if PointInRectangle c.area p = false ∧ c.onHover = true then 1 else 0 := by
  cases hin : PointInRectangle c.area p <;> cases hh : c.onHover <;>
    simp [hoverStep, hin, hh]

lemma hoverStep_count_leave_ne (p : Point) (c : Control) (k j : Nat)
    (h : j ≠ k) :
    (((hoverStep p c).2).map (fun g => g k)).count (Ev.leaveHover j) = 0 := by
  cases hin : PointInRectangle c.area p <;> cases hh : c.onHover <;>
    simp [hoverStep, hin, hh, h]

/-! ## Paint trace -/

lemma paintGo_eq (l : Registry) :
    ∀ i : Nat, paintGo l i = (List.range' i l.length).map Ev.painted := by
  induction l with
  | nil => intro i; rfl
  | cons c cs ih =>
      intro i
      simp [paintGo, List.range'_succ, ih (i + 1)]

lemma paintGo_count (l : Registry) :
    ∀ i j : Nat,
      (paintGo l i).count (Ev.painted j) =
        if i ≤ j ∧ j < i + l.length then 1 else 0 := by
  induction l with
  | nil =>
      intro i j
      simp only [paintGo, List.count_nil, List.length_nil]
      rw [if_neg (by omega)]
  | cons c cs ih =>
      intro i j
      simp only [paintGo, List.count_cons, ih (i + 1) j, List.length_cons,
        beq_iff_eq, Ev.painted.injEq]
      by_cases hij : i = j
      · subst hij
        rw [if_pos rfl, if_neg (by omega), if_pos (by omega)]
      · rw [if_neg hij]
        split_ifs with h1 h2 h2 <;> omega

/-- C8: a repaint invokes `Paint` on every registered control exactly once, in
insertion order (the trace is exactly `painted 0, …, painted (n-1)`), and the
trace is independent of every control's hover/pressed/focused state (it
depends only on how many controls are registered). -/
theorem paint_order_spec (s : Registry) :
    containerPaint s = (List.range s.length).map Ev.painted
    ∧ (∀ i : Nat, (containerPaint s).count (Ev.painted i) =
        if i < s.length then 1 else 0)
    ∧ (∀ s' : Registry, s'.length = s.length → containerPaint s' = containerPaint s) := by
  refine ⟨?_, ?_, ?_⟩
  · rw [containerPaint, paintGo_eq, List.range_eq_range']
  · intro i
    rw [containerPaint, paintGo_count]
    simp
  · intro s' hlen
    rw [containerPaint, containerPaint, paintGo_eq, paintGo_eq, hlen]

/-! ## Hit testing -/

/-- C3: the hit test is true iff the point lies strictly between left/right and
strictly between top/bottom; a point exactly on any of the four edges is not
inside. -/
theorem pointInRectangle_spec (r : Rect) (p : Point) :
    (PointInRectangle r p = true ↔
      (r.left < (p.x : Rat) ∧ (p.x : Rat) < r.right
        ∧ r.top < (p.y : Rat) ∧ (p.y : Rat) < r.bottom))
    ∧ (((p.x : Rat) = r.left ∨ (p.x : Rat) = r.right
        ∨ (p.y : Rat) = r.top ∨ (p.y : Rat) = r.bottom) →
        PointInRectangle r p = false) := by
  have hiff : PointInRectangle r p = true ↔
      (r.left < (p.x : Rat) ∧ (p.x : Rat) < r.right
        ∧ r.top < (p.y : Rat) ∧ (p.y : Rat) < r.bottom) := by
    simp only [PointInRectangle, Bool.and_eq_true, decide_eq_true_eq, gt_iff_lt]
    tauto
  refine ⟨hiff, ?_⟩
  intro hedge
  rcases Bool.eq_false_or_eq_true (PointInRectangle r p) with ht | hf
  · exfalso
    have hin := hiff.mp ht
    rcases hedge with h | h | h | h
    · exact absurd hin.1 (by rw [h]; exact lt_irrefl _)
    · exact absurd hin.2.1 (by rw [h]; exact lt_irrefl _)
    · exact absurd hin.2.2.1 (by rw [h]; exact lt_irrefl _)
    · exact absurd hin.2.2.2 (by rw [h]; exact lt_irrefl _)
  · exact hf

/-- Witness for C3 at a concrete rectangle and edge point. -/
theorem pointInRectangle_spec_witness :
    PointInRectangle ⟨20, 20, 150, 50⟩ ⟨20, 30⟩ = false :=
  (pointInRectangle_spec ⟨20, 20, 150, 50⟩ ⟨20, 30⟩).2 (Or.inl (by norm_num))

/-! ## TextBox editing -/

/-- C4: on a `TextBox`, a non-backspace character appends and invokes the
change callback exactly once; backspace via the character path is ignored
(no text change, no callback); the backspace virtual key pops the last
character and fires the callback exactly once when the text is non-empty, and
does nothing (no callback) when the text is empty.  The `Nat` component counts
the `_changeEvent()` invocations performed by the virtual method. -/
theorem textBox_edit_spec (c : Control) (hk : c.kind = Kind.textBox)
    (ch : Char) (key : Nat) :
    (ch ≠ backspaceChar →
      Control.onCharV c ch = ({ c with text := c.text ++ [ch] }, 1))
    ∧ Control.onCharV c backspaceChar = (c, 0)
    ∧ (key = VK_BACK → c.text ≠ [] →
      Control.onKeyDownV c key = ({ c with text := c.text.dropLast }, 1))
    ∧ (key = VK_BACK → c.text = [] → Control.onKeyDownV c key = (c, 0)) := by
  refine ⟨?_, ?_, ?_, ?_⟩
  · intro hch
    simp [Control.onCharV, hk, hch]
  · simp [Control.onCharV, hk]
  · intro hkey hne
    simp [Control.onKeyDownV, hk, hkey, hne]
  · intro hkey hemp
    simp [Control.onKeyDownV, hk, hkey, hemp]

/-- Witness for C4 on a concrete focused TextBox holding "ab". -/
theorem textBox_edit_spec_witness :
    Control.onCharV (newControl Kind.textBox ⟨20, 20, 150, 50⟩ ['a', 'b']) 'c'
      = ({ newControl Kind.textBox ⟨20, 20, 150, 50⟩ ['a', 'b'] with
            text := ['a', 'b', 'c'] }, 1) :=
  ((textBox_edit_spec (newControl Kind.textBox ⟨20, 20, 150, 50⟩ ['a', 'b'])
      rfl 'c' VK_BACK).1 (by decide))

/-- C7: after a pointer-move at `(x, y)`, every registered control's hover
flag equals the hit test against its bounds; `OnHover` (pointer enter) fires
exactly once when the hit test succeeds and the flag was false, otherwise not
at all, and `LeaveHover` fires exactly once when the hit test fails and the
flag was true, otherwise not at all; the scan visits every control (no early
exit), so this holds at every index simultaneously. -/
theorem hover_dispatch_spec (s : Registry) (x y : Nat) (j : Nat)
    (hj : j < s.length) :
    (ctl (containerOnHover s x y).1 j).onHover
      = PointInRectangle (ctl s j).area ⟨x, y⟩
    ∧ ((containerOnHover s x y).2.count (Ev.enter j) =
        if PointInRectangle (ctl s j).area ⟨x, y⟩ = true ∧ (ctl s j).onHover = false
        then 1 else 0)
    ∧ ((containerOnHover s x y).2.count (Ev.leaveHover j) =
        if PointInRectangle (ctl s j).area ⟨x, y⟩ = false ∧ (ctl s j).onHover = true
        then 1 else 0) := by
  refine ⟨?_, ?_, ?_⟩
  · rw [containerOnHover, ctl_scanAll _ _ _ _ hj, hoverStep_onHover]
  · have h := scanAll_count_of (hoverStep ⟨x, y⟩) Ev.enter
      (fun c => if PointInRectangle c.area ⟨x, y⟩ = true ∧ c.onHover = false
        then 1 else 0)
      (hoverStep_count_enter ⟨x, y⟩)
      (fun c k j h => hoverStep_count_enter_ne ⟨x, y⟩ c k j h)
      s 0 j hj
    simpa [containerOnHover] using h
  · have h := scanAll_count_of (hoverStep ⟨x, y⟩) Ev.leaveHover
      (fun c => if PointInRectangle c.area ⟨x, y⟩ = false ∧ c.onHover = true
        then 1 else 0)
      (hoverStep_count_leave ⟨x, y⟩)
      (fun c k j h => hoverStep_count_leave_ne ⟨x, y⟩ c k j h)
      s 0 j hj
    simpa [containerOnHover] using h

/-- Witness for C7 on a one-control registry with the pointer inside. -/
theorem hover_dispatch_spec_witness :
    (ctl (containerOnHover [newControl Kind.button ⟨0, 0, 10, 10⟩] 5 5).1 0).onHover
      = PointInRectangle (ctl [newControl Kind.button ⟨0, 0, 10, 10⟩] 0).area ⟨5, 5⟩ :=
  (hover_dispatch_spec [newControl Kind.button ⟨0, 0, 10, 10⟩] 5 5 0 (by decide)).1

/-! ## Keyboard routing -/

lemma ctl_mem {s : Registry} {j : Nat} (hj : j < s.length) : ctl s j ∈ s := by
  rw [ctl, List.getElem?_eq_getElem hj]
  exact List.getElem_mem hj

lemma firstFocusedIdx_some_iff :
    ∀ (l : Registry) (i j : Nat),
      firstFocusedIdx l i = Option.some j ↔
        ∃ d, d < l.length ∧ j = i + d ∧ (ctl l d).onFocus = true
          ∧ ∀ e, e < d → (ctl l e).onFocus = false := by
  intro l
  induction l with
  | nil => intro i j; simp [firstFocusedIdx]
  | cons c cs ih =>
      intro i j
      cases hc : c.onFocus with
      | true =>
          simp only [firstFocusedIdx]
          rw [if_pos hc]
          constructor
          · intro hij
            obtain rfl : i = j := Option.some.inj hij
            exact ⟨0, by simp, by omega, by rwa [ctl_cons_zero],
              fun e he => absurd he (Nat.not_lt_zero e)⟩
          · rintro ⟨d, hd, hjd, hfoc, hprev⟩
            cases d with
            | zero => exact congrArg Option.some (by omega)
            | succ d' =>
                have h0 := hprev 0 (Nat.succ_pos d')
                rw [ctl_cons_zero, hc] at h0
                exact Bool.noConfusion h0
      | false =>
          simp only [firstFocusedIdx]
          rw [if_neg (by simp [hc]), ih (i + 1) j]
          constructor
          · rintro ⟨d', hd', hjd, hfoc, hprev⟩
            refine ⟨d' + 1, by simpa using hd', by omega,
              by rwa [ctl_cons_succ], ?_⟩
            intro e he
            cases e with
            | zero => rw [ctl_cons_zero]; exact hc
            | succ e' => rw [ctl_cons_succ]; exact hprev e' (by omega)
          · rintro ⟨d, hd, hjd, hfoc, hprev⟩
            cases d with
            | zero =>
                rw [ctl_cons_zero, hc] at hfoc
                exact Bool.noConfusion hfoc
            | succ d' =>
                refine ⟨d', by simpa using hd, by omega,
                  by rwa [ctl_cons_succ] at hfoc, ?_⟩
                intro e he
                have h1 := hprev (e + 1) (by omega)
                rwa [ctl_cons_succ] at h1

lemma firstFocusedIdx_none_iff :
    ∀ (l : Registry) (i : Nat),
      firstFocusedIdx l i = Option.none ↔ ∀ c ∈ l, c.onFocus = false := by
  intro l
  induction l with
  | nil => intro i; simp [firstFocusedIdx]
  | cons c cs ih =>
      intro i
      by_cases hc : c.onFocus
      · simp [firstFocusedIdx, hc]
      · simp [firstFocusedIdx, hc, ih (i + 1), Bool.eq_false_iff.mpr hc]

lemma firstFocusedIdx_zero_iff (s : Registry) (j : Nat) :
    firstFocusedIdx s 0 = Option.some j ↔ FirstFocused s j := by
  rw [firstFocusedIdx_some_iff]
  constructor
  · rintro ⟨d, hd, hj, hfoc, hprev⟩
    exact ⟨by omega, by simpa [hj] using hfoc, fun k hk => hprev k (by omega)⟩
  · rintro ⟨hj, hfoc, hprev⟩
    exact ⟨j, hj, by omega, hfoc, fun e he => hprev e he⟩

/-! ## Pointer-up (leave-click) dispatch -/

lemma control_ext {c c' : Control} (hk : c.kind = c'.kind)
    (ha : c.area = c'.area) (hh : c.onHover = c'.onHover)
    (hc : c.onClick = c'.onClick) (hf : c.onFocus = c'.onFocus)
    (ht : c.text = c'.text) (hce : c.clickEvent = c'.clickEvent)
    (hche : c.changeEvent = c'.changeEvent) : c = c' := by
  cases c; cases c'; simp_all

lemma leaveClickLoop_succ_none {s : Registry} {i k : Nat}
    (hsi : s[i]? = Option.none) : leaveClickLoop s i (k + 1) = (s, []) := by
  simp [leaveClickLoop, hsi]

lemma leaveClickLoop_succ_pressed {s : Registry} {i k : Nat} {c : Control}
    (hsi : s[i]? = Option.some c) (hp : c.onClick = true) :
    leaveClickLoop s i (k + 1) =
      ((leaveClickLoop
          (runCallback c.clickEvent (s.set i { c with onClick := false }))
          (i + 1) k).1,
        Ev.clickFired i ::
          (leaveClickLoop
            (runCallback c.clickEvent (s.set i { c with onClick := false }))
            (i + 1) k).2) := by
  simp [leaveClickLoop, hsi, hp]

lemma leaveClickLoop_succ_notPressed {s : Registry} {i k : Nat} {c : Control}
    (hsi : s[i]? = Option.some c) (hp : c.onClick = false) :
    leaveClickLoop s i (k + 1) = leaveClickLoop s (i + 1) k := by
  simp [leaveClickLoop, hsi, hp]

lemma leaveClickLoop_length :
    ∀ (k : Nat) (s : Registry) (i : Nat),
      (leaveClickLoop s i k).1.length = s.length := by
  intro k
  induction k with
  | zero => intro s i; rfl
  | succ k ih =>
      intro s i
      cases hsi : s[i]? with
      | none => rw [leaveClickLoop_succ_none hsi]
      | some c =>
          by_cases hp : c.onClick = true
          · rw [leaveClickLoop_succ_pressed hsi hp]
            simp only
            rw [ih, runCallback_length, List.length_set]
          · rw [leaveClickLoop_succ_notPressed hsi (Bool.not_eq_true _ ▸ hp), ih]

lemma getElem?_some_of_lt {s : Registry} {i : Nat} (h : i < s.length) :
    s[i]? = Option.some (ctl s i) := by
  rw [ctl, List.getElem?_eq_getElem h]
  rfl

lemma lt_length_of_getElem?_some {s : Registry} {i : Nat} {c : Control}
    (h : s[i]? = Option.some c) : i < s.length := by
  by_contra hge
  rw [List.getElem?_eq_none (Nat.le_of_not_lt hge)] at h
  cases h

/-- Pointwise effect of the leave-click loop: every field except `onClick` and
`text` is preserved for every control; `onClick` is false on the visited range
and preserved outside it. -/
lemma leaveClickLoop_fields :
    ∀ (k : Nat) (s : Registry) (i j : Nat),
      (ctl (leaveClickLoop s i k).1 j).kind = (ctl s j).kind
      ∧ (ctl (leaveClickLoop s i k).1 j).area = (ctl s j).area
      ∧ (ctl (leaveClickLoop s i k).1 j).onHover = (ctl s j).onHover
      ∧ (ctl (leaveClickLoop s i k).1 j).onFocus = (ctl s j).onFocus
      ∧ (ctl (leaveClickLoop s i k).1 j).clickEvent = (ctl s j).clickEvent
      ∧ (ctl (leaveClickLoop s i k).1 j).changeEvent = (ctl s j).changeEvent
      ∧ (i ≤ j → j < i + k → j < s.length →
          (ctl (leaveClickLoop s i k).1 j).onClick = false)
      ∧ ((j < i ∨ i + k ≤ j) →
          (ctl (leaveClickLoop s i k).1 j).onClick = (ctl s j).onClick) := by
  intro k
  induction k with
  | zero =>
      intro s i j
      exact ⟨rfl, rfl, rfl, rfl, rfl, rfl,
        fun h1 h2 _ => absurd h2 (by omega), fun _ => rfl⟩
  | succ k ih =>
      intro s i j
      cases hsi : s[i]? with
      | none =>
          rw [leaveClickLoop_succ_none hsi]
          have hilen : s.length ≤ i := by
            by_contra hlt
            rw [getElem?_some_of_lt (Nat.lt_of_not_le hlt)] at hsi
            cases hsi
          exact ⟨rfl, rfl, rfl, rfl, rfl, rfl,
            fun h1 h2 h3 => absurd h3 (by omega), fun _ => rfl⟩
      | some c =>
          have hci : ctl s i = c := ctl_of_getElem? hsi
          have hilen : i < s.length := lt_length_of_getElem?_some hsi
          by_cases hp : c.onClick = true
          · rw [leaveClickLoop_succ_pressed hsi hp]
            simp only
            set s2 := runCallback c.clickEvent
              (s.set i { c with onClick := false }) with hs2
            have hfields : ∀ m, EqExceptText
                (ctl (s.set i { c with onClick := false }) m) (ctl s2 m) :=
              fun m => ctl_runCallback _ _ m
            obtain ⟨ihk, iha, ihh, ihf, ihce, ihche, ihin, ihout⟩ := ih s2 (i + 1) j
            by_cases hji : j = i
            · subst hji
              obtain ⟨e1, e2, e3, e4, e5, e6, e7⟩ :
                  EqExceptText { c with onClick := false } (ctl s2 j) := by
                have h0 := hfields j
                rwa [ctl_set_self hilen] at h0
              refine ⟨ihk.trans (e1.trans (by rw [hci])),
                iha.trans (e2.trans (by rw [hci])),
                ihh.trans (e3.trans (by rw [hci])),
                ihf.trans (e5.trans (by rw [hci])),
                ihce.trans (e6.trans (by rw [hci])),
                ihche.trans (e7.trans (by rw [hci])), ?_, ?_⟩
              · intro _ _ _
                rw [ihout (Or.inl (by omega))]
                exact e4
              · intro hout
                rcases hout with h | h <;> omega
            · obtain ⟨g1, g2, g3, g4, g5, g6, g7⟩ :
                  EqExceptText (ctl s j) (ctl s2 j) := by
                have h0 := hfields j
                rwa [ctl_set_ne (fun he => hji he.symm)] at h0
              refine ⟨ihk.trans g1, iha.trans g2, ihh.trans g3,
                ihf.trans g5, ihce.trans g6, ihche.trans g7, ?_, ?_⟩
              · intro h1 h2 h3
                exact ihin (by omega) (by omega)
                  (by rw [hs2, runCallback_length, List.length_set]; exact h3)
              · intro hout
                rw [ihout (by omega)]
                exact g4
          · have hp' : c.onClick = false := by
              cases hcc : c.onClick
              · rfl
              · exact absurd hcc hp
            rw [leaveClickLoop_succ_notPressed hsi hp']
            obtain ⟨ihk, iha, ihh, ihf, ihce, ihche, ihin, ihout⟩ := ih s (i + 1) j
            by_cases hji : j = i
            · subst hji
              refine ⟨ihk, iha, ihh, ihf, ihce, ihche, ?_, ?_⟩
              · intro _ _ _
                rw [ihout (Or.inl (by omega)), hci]
                exact hp'
              · intro _
                exact ihout (Or.inl (by omega))
            · refine ⟨ihk, iha, ihh, ihf, ihce, ihche, ?_, ?_⟩
              · intro h1 h2 h3
                exact ihin (by omega) (by omega) h3
              · intro hout
                exact ihout (by omega)

/-- Trace of the leave-click loop: the click callback of the control at index
`j` fires exactly once if that control was pressed when the pointer-up
arrived, and never otherwise. -/
lemma leaveClickLoop_count :
    ∀ (k : Nat) (s : Registry) (i j : Nat),
      (i ≤ j → j < i + k → j < s.length →
        ((leaveClickLoop s i k).2).count (Ev.clickFired j) =
          if (ctl s j).onClick = true then 1 else 0)
      ∧ (j < i → ((leaveClickLoop s i k).2).count (Ev.clickFired j) = 0) := by
  intro k
  induction k with
  | zero =>
      intro s i j
      exact ⟨fun h1 h2 _ => absurd h2 (by omega), fun _ => rfl⟩
  | succ k ih =>
      intro s i j
      cases hsi : s[i]? with
      | none =>
          rw [leaveClickLoop_succ_none hsi]
          have hilen : s.length ≤ i := by
            by_contra hlt
            rw [getElem?_some_of_lt (Nat.lt_of_not_le hlt)] at hsi
            cases hsi
          exact ⟨fun h1 h2 h3 => absurd h3 (by omega), fun _ => rfl⟩
      | some c =>
          have hci : ctl s i = c := ctl_of_getElem? hsi
          have hilen : i < s.length := lt_length_of_getElem?_some hsi
          by_cases hp : c.onClick = true
          · rw [leaveClickLoop_succ_pressed hsi hp]
            simp only
            set s2 := runCallback c.clickEvent
              (s.set i { c with onClick := false }) with hs2
            have hlen2 : s2.length = s.length := by
              rw [hs2, runCallback_length, List.length_set]
            obtain ⟨ihin, ihlow⟩ := ih s2 (i + 1) j
            by_cases hji : j = i
            · subst hji
              constructor
              · intro _ _ _
                rw [List.count_cons, ihlow (by omega), hci, if_pos hp]
                simp
              · intro h
                omega
            · constructor
              · intro h1 h2 h3
                have hcnt := ihin (by omega) (by omega) (by omega)
                have hflag : (ctl s2 j).onClick = (ctl s j).onClick := by
                  have h0 := ctl_runCallback c.clickEvent
                    (s.set i { c with onClick := false }) j
                  rw [ctl_set_ne (fun he => hji he.symm)] at h0
                  exact h0.2.2.2.1
                rw [List.count_cons, hcnt, hflag]
                simp [Ne.symm hji]
              · intro h
                rw [List.count_cons, ihlow (by omega)]
                simp [Ne.symm hji]
          · have hp' : c.onClick = false := by
              cases hcc : c.onClick
              · rfl
              · exact absurd hcc hp
            rw [leaveClickLoop_succ_notPressed hsi hp']
            obtain ⟨ihin, ihlow⟩ := ih s (i + 1) j
            by_cases hji : j = i
            · subst hji
              exact ⟨fun _ _ _ => by rw [ihlow (by omega), hci, if_neg (by simp [hp'])],
                fun h => ihlow (by omega)⟩
            · exact ⟨fun h1 h2 h3 => ihin (by omega) (by omega) h3,
                fun h => ihlow (by omega)⟩

/-- If no control is pressed, a pointer-up is a complete no-op: no state
change and no callback. -/
lemma leaveClickLoop_no_pressed :
    ∀ (k : Nat) (s : Registry) (i : Nat),
      (∀ c ∈ s, c.onClick = false) → leaveClickLoop s i k = (s, []) := by
  intro k
  induction k with
  | zero => intro s i _; rfl
  | succ k ih =>
      intro s i hall
      cases hsi : s[i]? with
      | none => exact leaveClickLoop_succ_none hsi
      | some c =>
          have hc : c.onClick = false := hall c (List.getElem?_mem hsi)
          rw [leaveClickLoop_succ_notPressed hsi hc]
          exact ih s (i + 1) hall

/-- If every control's click callback is the default no-op, the text of every
control is untouched by the leave-click loop. -/
lemma leaveClickLoop_text_none :
    ∀ (k : Nat) (s : Registry) (i : Nat),
      (∀ c ∈ s, c.clickEvent = Callback.none) →
      ∀ j, (ctl (leaveClickLoop s i k).1 j).text = (ctl s j).text := by
  intro k
  induction k with
  | zero => intro s i _ j; rfl
  | succ k ih =>
      intro s i hall j
      cases hsi : s[i]? with
      | none => rw [leaveClickLoop_succ_none hsi]
      | some c =>
          have hilen : i < s.length := lt_length_of_getElem?_some hsi
          have hci : ctl s i = c := ctl_of_getElem? hsi
          by_cases hp : c.onClick = true
          · rw [leaveClickLoop_succ_pressed hsi hp]
            simp only
            have hcbnone : c.clickEvent = Callback.none :=
              hall c (List.getElem?_mem hsi)
            have hs2 : runCallback c.clickEvent
                (s.set i { c with onClick := false })
                = s.set i { c with onClick := false } := by
              rw [hcbnone]
              rfl
            rw [hs2]
            have hall2 : ∀ c' ∈ s.set i { c with onClick := false },
                c'.clickEvent = Callback.none := by
              intro c' hc'
              rcases List.mem_or_eq_of_mem_set hc' with h | h
              · exact hall c' h
              · rw [h]
                exact hcbnone
            rw [ih _ (i + 1) hall2 j]
            by_cases hji : j = i
            · subst hji
              rw [ctl_set_self hilen, hci]
            · rw [ctl_set_ne (fun he => hji he.symm)]
          · have hp' : c.onClick = false := by
              cases hcc : c.onClick
              · rfl
              · exact absurd hcc hp
            rw [leaveClickLoop_succ_notPressed hsi hp']
            exact ih s (i + 1) hall j

lemma clickStep_onClick_inside {p : Point} {c : Control}
    (h : PointInRectangle c.area p = true) :
    (clickStep p c).1.onClick = true := by
  simp [clickStep, h]

lemma clickStep_onClick_outside {p : Point} {c : Control}
    (h : PointInRectangle c.area p = false) :
    (clickStep p c).1.onClick = c.onClick := by
  by_cases hf : c.onFocus = true <;> simp [clickStep, h, hf]

lemma containerOnClick_ctl (s : Registry) (x y j : Nat) (hj : j < s.length) :
    ctl (containerOnClick s x y).1 j = (clickStep ⟨x, y⟩ (ctl s j)).1 :=
  ctl_scanAll _ s 0 j hj

lemma containerOnClick_length (s : Registry) (x y : Nat) :
    (containerOnClick s x y).1.length = s.length :=
  scanAll_length _ s 0

/-- C6: a global pointer-up clears the pressed flag of every control and fires
the click callback exactly once for each control that was pressed (and never
for one that was not), with no dependence on any pointer position; a
pointer-down inside a control's bounds followed by a pointer-up fires that
control's click callback exactly once and leaves its pressed flag false; after
a pointer-down outside every control's bounds (from an all-unpressed state), a
pointer-up fires no click callback at all. -/
theorem pointer_up_spec (s : Registry) (j x y : Nat) (hj : j < s.length) :
    (ctl (containerLeaveClick s).1 j).onClick = false
    ∧ ((containerLeaveClick s).2.count (Ev.clickFired j) =
        if (ctl s j).onClick = true then 1 else 0)
    ∧ (PointInRectangle (ctl s j).area ⟨x, y⟩ = true →
        (containerLeaveClick (containerOnClick s x y).1).2.count (Ev.clickFired j) = 1
        ∧ (ctl (containerLeaveClick (containerOnClick s x y).1).1 j).onClick = false)
    ∧ ((∀ c ∈ s, c.onClick = false) →
        (∀ c ∈ s, PointInRectangle c.area ⟨x, y⟩ = false) →
        (containerLeaveClick (containerOnClick s x y).1).2 = []) := by
  refine ⟨?_, ?_, ?_, ?_⟩
  · exact (leaveClickLoop_fields s.length s 0 j).2.2.2.2.2.2.1
      (by omega) (by omega) hj
  · exact (leaveClickLoop_count s.length s 0 j).1 (by omega) (by omega) hj
  · intro hin
    have hlen' : (containerOnClick s x y).1.length = s.length :=
      containerOnClick_length s x y
    have hflag : (ctl (containerOnClick s x y).1 j).onClick = true := by
      rw [containerOnClick_ctl s x y j hj]
      exact clickStep_onClick_inside hin
    constructor
    · have h := (leaveClickLoop_count (containerOnClick s x y).1.length
        (containerOnClick s x y).1 0 j).1 (by omega) (by omega) (by omega)
      rw [containerLeaveClick, h, hflag, if_pos rfl]
    · exact (leaveClickLoop_fields (containerOnClick s x y).1.length
        (containerOnClick s x y).1 0 j).2.2.2.2.2.2.1 (by omega) (by omega)
        (by omega)
  · intro hall hout
    have hall' : ∀ c' ∈ (containerOnClick s x y).1, c'.onClick = false := by
      intro c' hc'
      rw [containerOnClick, scanAll_fst] at hc'
      obtain ⟨c, hcmem, hceq⟩ := List.mem_map.mp hc'
      rw [← hceq, clickStep_onClick_outside (hout c hcmem)]
      exact hall c hcmem
    rw [containerLeaveClick,
      leaveClickLoop_no_pressed _ (containerOnClick s x y).1 0 hall']

/-- Witness for C6: a pointer-down inside a button's bounds followed by a
pointer-up fires its click callback once and leaves it unpressed. -/
theorem pointer_up_spec_witness :
    (containerLeaveClick
        (containerOnClick [newControl Kind.button ⟨0, 0, 10, 10⟩] 5 5).1).2.count
      (Ev.clickFired 0) = 1
    ∧ (ctl (containerLeaveClick
        (containerOnClick [newControl Kind.button ⟨0, 0, 10, 10⟩] 5 5).1).1
        0).onClick = false :=
  (pointer_up_spec [newControl Kind.button ⟨0, 0, 10, 10⟩] 0 5 5
    (by decide)).2.2.1 (by decide)

lemma containerOnChar_of_none {s : Registry} {ch : Char}
    (h : firstFocusedIdx s 0 = Option.none) : containerOnChar s ch = (s, []) := by
  simp [containerOnChar, h]

lemma containerOnKeyDown_of_none {s : Registry} {key : Nat}
    (h : firstFocusedIdx s 0 = Option.none) :
    containerOnKeyDown s key = (s, []) := by
  simp [containerOnKeyDown, h]

lemma containerOnChar_trace_of_some {s : Registry} {ch : Char} {i : Nat}
    {c : Control} (h : firstFocusedIdx s 0 = Option.some i)
    (hc : s[i]? = Option.some c) :
    (containerOnChar s ch).2 =
      if (Control.onCharV c ch).2 = 0 then [Ev.charTo i]
      else [Ev.charTo i, Ev.changeFired i] := by
  simp only [containerOnChar, h, hc]
  split_ifs with h0 <;> simp

lemma containerOnKeyDown_trace_of_some {s : Registry} {key : Nat} {i : Nat}
    {c : Control} (h : firstFocusedIdx s 0 = Option.some i)
    (hc : s[i]? = Option.some c) :
    (containerOnKeyDown s key).2 =
      if (Control.onKeyDownV c key).2 = 0 then [Ev.keyTo i]
      else [Ev.keyTo i, Ev.changeFired i] := by
  simp only [containerOnKeyDown, h, hc]
  split_ifs with h0 <;> simp

/-- C5: a character or key-down event is delivered to exactly the first
control in insertion order whose focused flag is set, and to no other
control; if no registered control is focused (including the empty registry),
the event changes no state and invokes no hook. -/
theorem keyboard_routing_spec (s : Registry) (ch : Char) (key : Nat) (j : Nat) :
    (Ev.charTo j ∈ (containerOnChar s ch).2 ↔ FirstFocused s j)
    ∧ (Ev.keyTo j ∈ (containerOnKeyDown s key).2 ↔ FirstFocused s j)
    ∧ ((∀ c ∈ s, c.onFocus = false) →
        containerOnChar s ch = (s, []) ∧ containerOnKeyDown s key = (s, [])) := by
  refine ⟨?_, ?_, ?_⟩
  · cases hf : firstFocusedIdx s 0 with
    | none =>
        rw [containerOnChar_of_none hf]
        simp only [List.not_mem_nil, false_iff]
        intro hff
        rw [← firstFocusedIdx_zero_iff, hf] at hff
        cases hff
    | some i =>
        have hi : FirstFocused s i := (firstFocusedIdx_zero_iff s i).mp hf
        have hc : s[i]? = Option.some (ctl s i) := getElem?_some_of_lt hi.1
        rw [containerOnChar_trace_of_some hf hc]
        have hiff : FirstFocused s j ↔ i = j := by
          rw [← firstFocusedIdx_zero_iff, hf]
          exact ⟨Option.some.inj, fun h => congrArg Option.some h⟩
        rw [hiff]
        split_ifs <;> simp [eq_comm]
  · cases hf : firstFocusedIdx s 0 with
    | none =>
        rw [containerOnKeyDown_of_none hf]
        simp only [List.not_mem_nil, false_iff]
        intro hff
        rw [← firstFocusedIdx_zero_iff, hf] at hff
        cases hff
    | some i =>
        have hi : FirstFocused s i := (firstFocusedIdx_zero_iff s i).mp hf
        have hc : s[i]? = Option.some (ctl s i) := getElem?_some_of_lt hi.1
        rw [containerOnKeyDown_trace_of_some hf hc]
        have hiff : FirstFocused s j ↔ i = j := by
          rw [← firstFocusedIdx_zero_iff, hf]
          exact ⟨Option.some.inj, fun h => congrArg Option.some h⟩
        rw [hiff]
        split_ifs <;> simp [eq_comm]
  · intro hall
    have hf : firstFocusedIdx s 0 = Option.none :=
      (firstFocusedIdx_none_iff s 0).mpr hall
    exact ⟨containerOnChar_of_none hf, containerOnKeyDown_of_none hf⟩

/-- Witness for C5: with an unfocused button first and a focused TextBox
second, a character is delivered to the TextBox (index 1). -/
theorem keyboard_routing_spec_witness :
    Ev.charTo 1 ∈ (containerOnChar
      [newControl Kind.button ⟨0, 0, 10, 10⟩,
        { newControl Kind.textBox ⟨0, 20, 10, 30⟩ with onFocus := true }] 'a').2 :=
  (keyboard_routing_spec
    [newControl Kind.button ⟨0, 0, 10, 10⟩,
      { newControl Kind.textBox ⟨0, 20, 10, 30⟩ with onFocus := true }]
    'a' 8 1).1.mpr (by decide)

/-- C9: every control's callbacks are initialised to no-ops at construction,
so firing an unregistered callback is a well-defined no-op: running the
default callback changes nothing, and a pointer-up over a registry whose click
callbacks are all still the defaults simply clears every pressed flag, with no
failure branch. -/
theorem default_callback_spec (k : Kind) (r : Rect) (t : List Char)
    (s : Registry) :
    (newControl k r t).clickEvent = Callback.none
    ∧ (newControl k r t).changeEvent = Callback.none
    ∧ runCallback Callback.none s = s
    ∧ ((∀ c ∈ s, c.clickEvent = Callback.none) →
        ∀ j, ctl (containerLeaveClick s).1 j = { ctl s j with onClick := false }) := by
  refine ⟨rfl, rfl, rfl, ?_⟩
  intro hall j
  by_cases hj : j < s.length
  · obtain ⟨f1, f2, f3, f4, f5, f6, f7, f8⟩ := leaveClickLoop_fields s.length s 0 j
    have htext := leaveClickLoop_text_none s.length s 0 hall j
    exact control_ext f1 f2 f3 (f7 (by omega) (by omega) hj) f4 htext f5 f6
  · have hlen := leaveClickLoop_length s.length s 0
    have hnone : (containerLeaveClick s).1[j]? = Option.none := by
      simp only [containerLeaveClick]
      apply List.getElem?_eq_none
      rw [hlen]
      omega
    have hnone2 : s[j]? = Option.none := List.getElem?_eq_none (by omega)
    rw [ctl, ctl, hnone, hnone2]
    rfl

/-- Witness for C9 on a one-button registry with default callbacks. -/
theorem default_callback_spec_witness :
    runCallback Callback.none [newControl Kind.button ⟨0, 0, 10, 10⟩]
        = [newControl Kind.button ⟨0, 0, 10, 10⟩]
    ∧ ctl (containerLeaveClick [newControl Kind.button ⟨0, 0, 10, 10⟩]).1 0
        = { ctl [newControl Kind.button ⟨0, 0, 10, 10⟩] 0 with onClick := false } :=
  ⟨(default_callback_spec Kind.button ⟨0, 0, 10, 10⟩ []
      [newControl Kind.button ⟨0, 0, 10, 10⟩]).2.2.1,
    (default_callback_spec Kind.button ⟨0, 0, 10, 10⟩ []
      [newControl Kind.button ⟨0, 0, 10, 10⟩]).2.2.2 (by decide) 0⟩

/-! ## Frame effects -/

lemma eqExceptText_trans {a b c : Control}
    (h1 : EqExceptText a b) (h2 : EqExceptText b c) : EqExceptText a c :=
  ⟨h2.1.trans h1.1, h2.2.1.trans h1.2.1, h2.2.2.1.trans h1.2.2.1,
    h2.2.2.2.1.trans h1.2.2.2.1, h2.2.2.2.2.1.trans h1.2.2.2.2.1,
    h2.2.2.2.2.2.1.trans h1.2.2.2.2.2.1, h2.2.2.2.2.2.2.trans h1.2.2.2.2.2.2⟩

lemma onCharV_eqExceptText (c : Control) (ch : Char) :
    EqExceptText c (Control.onCharV c ch).1 := by
  cases hk : c.kind with
  | textBox =>
      by_cases hch : ch ≠ backspaceChar <;>
        simp [Control.onCharV, hk, hch, EqExceptText]
  | button => simp [Control.onCharV, hk, EqExceptText]
  | label => simp [Control.onCharV, hk, EqExceptText]

lemma onKeyDownV_eqExceptText (c : Control) (key : Nat) :
    EqExceptText c (Control.onKeyDownV c key).1 := by
  cases hk : c.kind with
  | textBox =>
      by_cases hkey : key = VK_BACK ∧ c.text ≠ [] <;>
        simp [Control.onKeyDownV, hk, hkey, EqExceptText]
  | button => simp [Control.onKeyDownV, hk, EqExceptText]
  | label => simp [Control.onKeyDownV, hk, EqExceptText]

lemma onCharV_of_not_textBox {c : Control} (hk : c.kind ≠ Kind.textBox)
    (ch : Char) : (Control.onCharV c ch).1 = c := by
  cases hkk : c.kind with
  | textBox => exact absurd hkk hk
  | button => simp [Control.onCharV, hkk]
  | label => simp [Control.onCharV, hkk]

lemma onKeyDownV_of_not_textBox {c : Control} (hk : c.kind ≠ Kind.textBox)
    (key : Nat) : (Control.onKeyDownV c key).1 = c := by
  cases hkk : c.kind with
  | textBox => exact absurd hkk hk
  | button => simp [Control.onKeyDownV, hkk]
  | label => simp [Control.onKeyDownV, hkk]

lemma containerOnChar_state_of_some {s : Registry} {ch : Char} {i : Nat}
    {c : Control} (h : firstFocusedIdx s 0 = Option.some i)
    (hc : s[i]? = Option.some c) :
    (containerOnChar s ch).1 =
      if (Control.onCharV c ch).2 = 0 then s.set i (Control.onCharV c ch).1
      else runCallback c.changeEvent (s.set i (Control.onCharV c ch).1) := by
  simp only [containerOnChar, h, hc]
  split_ifs with h0 <;> simp

lemma containerOnKeyDown_state_of_some {s : Registry} {key : Nat} {i : Nat}
    {c : Control} (h : firstFocusedIdx s 0 = Option.some i)
    (hc : s[i]? = Option.some c) :
    (containerOnKeyDown s key).1 =
      if (Control.onKeyDownV c key).2 = 0 then s.set i (Control.onKeyDownV c key).1
      else runCallback c.changeEvent (s.set i (Control.onKeyDownV c key).1) := by
  simp only [containerOnKeyDown, h, hc]
  split_ifs with h0 <;> simp

/-- A character event can change only `text` fields: bounds and all
interaction flags of every control are untouched. -/
lemma containerOnChar_frame (s : Registry) (ch : Char) (j : Nat) :
    EqExceptText (ctl s j) (ctl (containerOnChar s ch).1 j) := by
  cases hf : firstFocusedIdx s 0 with
  | none =>
      rw [containerOnChar_of_none hf]
      exact eqExceptText_refl _
  | some i =>
      have hi : FirstFocused s i := (firstFocusedIdx_zero_iff s i).mp hf
      have hc : s[i]? = Option.some (ctl s i) := getElem?_some_of_lt hi.1
      rw [containerOnChar_state_of_some hf hc]
      have hset : EqExceptText (ctl s j)
          (ctl (s.set i (Control.onCharV (ctl s i) ch).1) j) := by
        by_cases hji : j = i
        · subst hji
          rw [ctl_set_self hi.1]
          exact onCharV_eqExceptText _ _
        · rw [ctl_set_ne (fun he => hji he.symm)]
          exact eqExceptText_refl _
      split_ifs with h0
      · exact hset
      · exact eqExceptText_trans hset (ctl_runCallback _ _ j)

lemma containerOnKeyDown_frame (s : Registry) (key : Nat) (j : Nat) :
    EqExceptText (ctl s j) (ctl (containerOnKeyDown s key).1 j) := by
  cases hf : firstFocusedIdx s 0 with
  | none =>
      rw [containerOnKeyDown_of_none hf]
      exact eqExceptText_refl _
  | some i =>
      have hi : FirstFocused s i := (firstFocusedIdx_zero_iff s i).mp hf
      have hc : s[i]? = Option.some (ctl s i) := getElem?_some_of_lt hi.1
      rw [containerOnKeyDown_state_of_some hf hc]
      have hset : EqExceptText (ctl s j)
          (ctl (s.set i (Control.onKeyDownV (ctl s i) key).1) j) := by
        by_cases hji : j = i
        · subst hji
          rw [ctl_set_self hi.1]
          exact onKeyDownV_eqExceptText _ _
        · rw [ctl_set_ne (fun he => hji he.symm)]
          exact eqExceptText_refl _
      split_ifs with h0
      · exact hset
      · exact eqExceptText_trans hset (ctl_runCallback _ _ j)

lemma containerOnChar_text (s : Registry) (ch : Char) (j : Nat)
    (hnone : ∀ c ∈ s, c.changeEvent = Callback.none)
    (hne : (ctl (containerOnChar s ch).1 j).text ≠ (ctl s j).text) :
    (ctl s j).onFocus = true ∧ (ctl s j).kind = Kind.textBox := by
  cases hf : firstFocusedIdx s 0 with
  | none =>
      rw [containerOnChar_of_none hf] at hne
      exact absurd rfl hne
  | some i =>
      have hi : FirstFocused s i := (firstFocusedIdx_zero_iff s i).mp hf
      have hc : s[i]? = Option.some (ctl s i) := getElem?_some_of_lt hi.1
      rw [containerOnChar_state_of_some hf hc,
        hnone _ (ctl_mem hi.1)] at hne
      simp only [runCallback, ite_self] at hne
      by_cases hji : j = i
      · subst hji
        rw [ctl_set_self hi.1] at hne
        refine ⟨hi.2.1, ?_⟩
        by_contra hk
        rw [onCharV_of_not_textBox hk] at hne
        exact hne rfl
      · rw [ctl_set_ne (fun he => hji he.symm)] at hne
        exact absurd rfl hne

lemma containerOnKeyDown_text (s : Registry) (key : Nat) (j : Nat)
    (hnone : ∀ c ∈ s, c.changeEvent = Callback.none)
    (hne : (ctl (containerOnKeyDown s key).1 j).text ≠ (ctl s j).text) :
    (ctl s j).onFocus = true ∧ (ctl s j).kind = Kind.textBox := by
  cases hf : firstFocusedIdx s 0 with
  | none =>
      rw [containerOnKeyDown_of_none hf] at hne
      exact absurd rfl hne
  | some i =>
      have hi : FirstFocused s i := (firstFocusedIdx_zero_iff s i).mp hf
      have hc : s[i]? = Option.some (ctl s i) := getElem?_some_of_lt hi.1
      rw [containerOnKeyDown_state_of_some hf hc,
        hnone _ (ctl_mem hi.1)] at hne
      simp only [runCallback, ite_self] at hne
      by_cases hji : j = i
      · subst hji
        rw [ctl_set_self hi.1] at hne
        refine ⟨hi.2.1, ?_⟩
        by_contra hk
        rw [onKeyDownV_of_not_textBox hk] at hne
        exact hne rfl
      · rw [ctl_set_ne (fun he => hji he.symm)] at hne
        exact absurd rfl hne

lemma ctl_out_of_range {s : Registry} {j : Nat} (h : s.length ≤ j) :
    ctl s j = default := by
  rw [ctl, List.getElem?_eq_none h]
  rfl

lemma hoverStep_text (p : Point) (c : Control) :
    (hoverStep p c).1.text = c.text := by
  cases hin : PointInRectangle c.area p <;> cases hh : c.onHover <;>
    simp [hoverStep, hin, hh]

lemma clickStep_text (p : Point) (c : Control) :
    (clickStep p c).1.text = c.text := by
  cases hin : PointInRectangle c.area p <;> by_cases hf : c.onFocus = true <;>
    simp [clickStep, hin, hf]

/-- C10: character and key-down dispatch leave every control's bounds and
hover/pressed/focused flags (and kind and callbacks) unchanged, and — when no
user callback is registered — can change a control's text only if that
control is a focused TextBox; conversely pointer-move and pointer-down leave
every control's text unchanged unconditionally, and pointer-up leaves every
control's text unchanged when no user click callback is registered. -/
theorem frame_effect_spec (s : Registry) (ch : Char) (key x y : Nat) (j : Nat) :
    EqExceptText (ctl s j) (ctl (containerOnChar s ch).1 j)
    ∧ EqExceptText (ctl s j) (ctl (containerOnKeyDown s key).1 j)
    ∧ ((∀ c ∈ s, c.changeEvent = Callback.none) →
        ((ctl (containerOnChar s ch).1 j).text ≠ (ctl s j).text →
          (ctl s j).onFocus = true ∧ (ctl s j).kind = Kind.textBox)
        ∧ ((ctl (containerOnKeyDown s key).1 j).text ≠ (ctl s j).text →
          (ctl s j).onFocus = true ∧ (ctl s j).kind = Kind.textBox))
    ∧ (ctl (containerOnHover s x y).1 j).text = (ctl s j).text
    ∧ (ctl (containerOnClick s x y).1 j).text = (ctl s j).text
    ∧ ((∀ c ∈ s, c.clickEvent = Callback.none) →
        (ctl (containerLeaveClick s).1 j).text = (ctl s j).text) := by
  refine ⟨containerOnChar_frame s ch j, containerOnKeyDown_frame s key j,
    fun hnone => ⟨containerOnChar_text s ch j hnone,
      containerOnKeyDown_text s key j hnone⟩, ?_, ?_, ?_⟩
  · by_cases hj : j < s.length
    · rw [containerOnHover, ctl_scanAll _ s 0 j hj, hoverStep_text]
    · rw [ctl_out_of_range (Nat.le_of_not_lt hj), ctl_out_of_range (le_of_eq_of_le
        (by rw [containerOnHover, scanAll_length]) (Nat.le_of_not_lt hj))]
  · by_cases hj : j < s.length
    · rw [containerOnClick, ctl_scanAll _ s 0 j hj, clickStep_text]
    · rw [ctl_out_of_range (Nat.le_of_not_lt hj), ctl_out_of_range (le_of_eq_of_le
        (by rw [containerOnClick, scanAll_length]) (Nat.le_of_not_lt hj))]
  · intro hnone
    exact leaveClickLoop_text_none s.length s 0 hnone j

/-- Witness for C10 on a one-TextBox registry: a hover leaves the text
unchanged, and a character changes no flag. -/
theorem frame_effect_spec_witness :
    EqExceptText
      (ctl [{ newControl Kind.textBox ⟨0, 0, 10, 10⟩ with onFocus := true }] 0)
      (ctl (containerOnChar
        [{ newControl Kind.textBox ⟨0, 0, 10, 10⟩ with onFocus := true }] 'a').1 0)
    ∧ ((ctl (containerLeaveClick
        [{ newControl Kind.textBox ⟨0, 0, 10, 10⟩ with onFocus := true }]).1 0).text
      = (ctl [{ newControl Kind.textBox ⟨0, 0, 10, 10⟩ with onFocus := true }] 0).text) :=
  ⟨(frame_effect_spec
      [{ newControl Kind.textBox ⟨0, 0, 10, 10⟩ with onFocus := true }]
      'a' 8 3 3 0).1,
    (frame_effect_spec
      [{ newControl Kind.textBox ⟨0, 0, 10, 10⟩ with onFocus := true }]
      'a' 8 3 3 0).2.2.2.2.2 (by decide)⟩

/-! ## Focus exclusivity -/

lemma hoverStep_onFocus (p : Point) (c : Control) :
    (hoverStep p c).1.onFocus = c.onFocus := by
  cases hin : PointInRectangle c.area p <;> cases hh : c.onHover <;>
    simp [hoverStep, hin, hh]

lemma hoverStep_area (p : Point) (c : Control) :
    (hoverStep p c).1.area = c.area := by
  cases hin : PointInRectangle c.area p <;> cases hh : c.onHover <;>
    simp [hoverStep, hin, hh]

lemma clickStep_area (p : Point) (c : Control) :
    (clickStep p c).1.area = c.area := by
  cases hin : PointInRectangle c.area p <;> by_cases hf : c.onFocus = true <;>
    simp [clickStep, hin, hf]

/-- After a pointer-down, a control is focused exactly when the point hit it:
inside always focuses, outside always ends up unfocused (either it was
focused and `LeaveFocus` cleared it, or it already was not). -/
lemma clickStep_onFocus (p : Point) (c : Control) :
    (clickStep p c).1.onFocus = PointInRectangle c.area p := by
  cases hin : PointInRectangle c.area p with
  | true => simp [clickStep, hin]
  | false =>
      cases hf : c.onFocus with
      | true => simp [clickStep, hin, hf]
      | false => simp [clickStep, hin, hf]

lemma containerOnChar_length (s : Registry) (ch : Char) :
    (containerOnChar s ch).1.length = s.length := by
  cases hf : firstFocusedIdx s 0 with
  | none => rw [containerOnChar_of_none hf]
  | some i =>
      have hi : FirstFocused s i := (firstFocusedIdx_zero_iff s i).mp hf
      rw [containerOnChar_state_of_some hf (getElem?_some_of_lt hi.1)]
      split_ifs with h0
      · rw [List.length_set]
      · rw [runCallback_length, List.length_set]

lemma containerOnKeyDown_length (s : Registry) (key : Nat) :
    (containerOnKeyDown s key).1.length = s.length := by
  cases hf : firstFocusedIdx s 0 with
  | none => rw [containerOnKeyDown_of_none hf]
  | some i =>
      have hi : FirstFocused s i := (firstFocusedIdx_zero_iff s i).mp hf
      rw [containerOnKeyDown_state_of_some hf (getElem?_some_of_lt hi.1)]
      split_ifs with h0
      · rw [List.length_set]
      · rw [runCallback_length, List.length_set]

lemma dispatch_length (s : Registry) (e : Event) :
    (dispatch s e).length = s.length := by
  cases e with
  | move x y => exact scanAll_length _ s 0
  | down x y => exact scanAll_length _ s 0
  | up => exact leaveClickLoop_length s.length s 0
  | char ch => exact containerOnChar_length s ch
  | keyDown key => exact containerOnKeyDown_length s key

lemma dispatch_area (s : Registry) (e : Event) (j : Nat) :
    (ctl (dispatch s e) j).area = (ctl s j).area := by
  cases e with
  | move x y =>
      by_cases hj : j < s.length
      · rw [dispatch, containerOnHover, ctl_scanAll _ s 0 j hj, hoverStep_area]
      · rw [ctl_out_of_range (Nat.le_of_not_lt hj), ctl_out_of_range
          (le_of_eq_of_le (dispatch_length s (Event.move x y))
            (Nat.le_of_not_lt hj))]
  | down x y =>
      by_cases hj : j < s.length
      · rw [dispatch, containerOnClick, ctl_scanAll _ s 0 j hj, clickStep_area]
      · rw [ctl_out_of_range (Nat.le_of_not_lt hj), ctl_out_of_range
          (le_of_eq_of_le (dispatch_length s (Event.down x y))
            (Nat.le_of_not_lt hj))]
  | up => exact (leaveClickLoop_fields s.length s 0 j).2.1
  | char ch => exact (containerOnChar_frame s ch j).2.1
  | keyDown key => exact (containerOnKeyDown_frame s key j).2.1

lemma disjoint_preserved (s : Registry) (e : Event)
    (hdisj : DisjointBounds s) : DisjointBounds (dispatch s e) := by
  intro i j p hi hj hij
  rw [dispatch_length] at hi hj
  rw [dispatch_area, dispatch_area]
  exact hdisj i j p hi hj hij

lemma atMostOne_preserved (s : Registry) (e : Event)
    (hdisj : DisjointBounds s) (hinv : AtMostOneFocused s) :
    AtMostOneFocused (dispatch s e) := by
  cases e with
  | move x y =>
      intro i j hi hj hfi hfj
      rw [dispatch_length] at hi hj
      rw [dispatch, containerOnHover, ctl_scanAll _ s 0 i hi,
        hoverStep_onFocus] at hfi
      rw [dispatch, containerOnHover, ctl_scanAll _ s 0 j hj,
        hoverStep_onFocus] at hfj
      exact hinv i j hi hj hfi hfj
  | down x y =>
      intro i j hi hj hfi hfj
      rw [dispatch_length] at hi hj
      rw [dispatch, containerOnClick, ctl_scanAll _ s 0 i hi,
        clickStep_onFocus] at hfi
      rw [dispatch, containerOnClick, ctl_scanAll _ s 0 j hj,
        clickStep_onFocus] at hfj
      by_contra hij
      exact hdisj i j ⟨x, y⟩ hi hj hij ⟨hfi, hfj⟩
  | up =>
      intro i j hi hj hfi hfj
      rw [dispatch_length] at hi hj
      rw [dispatch, containerLeaveClick] at hfi hfj
      rw [(leaveClickLoop_fields s.length s 0 i).2.2.2.1] at hfi
      rw [(leaveClickLoop_fields s.length s 0 j).2.2.2.1] at hfj
      exact hinv i j hi hj hfi hfj
  | char ch =>
      intro i j hi hj hfi hfj
      rw [dispatch_length] at hi hj
      rw [dispatch, (containerOnChar_frame s ch i).2.2.2.2.1] at hfi
      rw [dispatch, (containerOnChar_frame s ch j).2.2.2.2.1] at hfj
      exact hinv i j hi hj hfi hfj
  | keyDown key =>
      intro i j hi hj hfi hfj
      rw [dispatch_length] at hi hj
      rw [dispatch, (containerOnKeyDown_frame s key i).2.2.2.2.1] at hfi
      rw [dispatch, (containerOnKeyDown_frame s key j).2.2.2.2.1] at hfj
      exact hinv i j hi hj hfi hfj

/-- Counterexample to C2 as stated: two overlapping registered controls, one
pointer-down dispatched by the container at a point inside both, and both end
up with their focused flag set — the click dispatch does not enforce single
focus. -/
theorem single_focus_counterexample :
    (ctl (run [newControl Kind.button ⟨20, 20, 150, 50⟩,
               newControl Kind.button ⟨20, 20, 150, 50⟩]
        [Event.down 30 30]) 0).onFocus = true
    ∧ (ctl (run [newControl Kind.button ⟨20, 20, 150, 50⟩,
               newControl Kind.button ⟨20, 20, 150, 50⟩]
        [Event.down 30 30]) 1).onFocus = true := by
  constructor <;> decide

/-- C2 (amended): when no point lies strictly inside two distinct controls'
bounds, every state reachable from an all-unfocused initial registry by
container-dispatched events has at most one focused control. -/
theorem single_focus_amended (s0 : Registry) (es : List Event)
    (hdisj : DisjointBounds s0)
    (hinit : ∀ c ∈ s0, c.onFocus = false) :
    AtMostOneFocused (run s0 es) := by
  have key : ∀ (l : List Event) (s : Registry), DisjointBounds s →
      AtMostOneFocused s →
      DisjointBounds (run s l) ∧ AtMostOneFocused (run s l) := by
    intro l
    induction l with
    | nil => exact fun s h1 h2 => ⟨h1, h2⟩
    | cons e l ih =>
        intro s h1 h2
        simp only [run, List.foldl_cons]
        exact ih (dispatch s e) (disjoint_preserved s e h1)
          (atMostOne_preserved s e h1 h2)
  have h0 : AtMostOneFocused s0 := by
    intro i j hi hj hfi hfj
    rw [hinit _ (ctl_mem hi)] at hfi
    exact Bool.noConfusion hfi
  exact (key es s0 hdisj h0).2

lemma disjoint_ui : DisjointBounds uiInit := by
  intro i j p hi hj hij
  rintro ⟨h1, h2⟩
  have hlen : uiInit.length = 2 := by rfl
  rw [hlen] at hi hj
  have hcase : (i = 0 ∧ j = 1) ∨ (i = 1 ∧ j = 0) := by omega
  have hbox : ∀ q : Point,
      PointInRectangle (ctl uiInit 0).area q = true →
      PointInRectangle (ctl uiInit 1).area q = true → False := by
    intro q hq0 hq1
    simp only [PointInRectangle, uiInit, newControl, ctl, Bool.and_eq_true,
      decide_eq_true_eq, gt_iff_lt, List.getElem?_cons_zero,
      List.getElem?_cons_succ, Option.getD_some] at hq0 hq1
    have hy0 : (q.y : Rat) < 50 := hq0.1.1.2
    have hy1 : (60 : Rat) < (q.y : Rat) := hq1.1.1.1
    linarith
  rcases hcase with ⟨hi0, hj1⟩ | ⟨hi1, hj0⟩
  · subst hi0; subst hj1
    exact hbox p h1 h2
  · subst hi1; subst hj0
    exact hbox p h2 h1

/-- Witness for the amended C2, on the program's own registry: after
`UserInterface()` and a click inside the TextBox, at most one control is
focused. -/
theorem single_focus_amended_witness :
    AtMostOneFocused (run uiInit [Event.down 30 30]) :=
  single_focus_amended uiInit [Event.down 30 30] disjoint_ui (by decide)

lemma ui_char_step (t : List Char) (ch : Char) (hch : ch ≠ backspaceChar) :
    dispatch (uiShape t) (Event.char ch) = uiShape (t ++ [ch]) := by
  simp [dispatch, containerOnChar, firstFocusedIdx, uiShape, newControl,
    Control.onCharV, hch, runCallback]

lemma ui_char_bs_step (t : List Char) :
    dispatch (uiShape t) (Event.char backspaceChar) = uiShape t := by
  simp [dispatch, containerOnChar, firstFocusedIdx, uiShape, newControl,
    Control.onCharV, runCallback]

lemma ui_key_back_step (t : List Char) (ht : t ≠ []) :
    dispatch (uiShape t) (Event.keyDown VK_BACK) = uiShape t.dropLast := by
  simp [dispatch, containerOnKeyDown, firstFocusedIdx, uiShape, newControl,
    Control.onKeyDownV, ht, runCallback]

lemma ui_key_back_empty_step :
    dispatch (uiShape []) (Event.keyDown VK_BACK) = uiShape [] := by
  simp [dispatch, containerOnKeyDown, firstFocusedIdx, uiShape, newControl,
    Control.onKeyDownV, runCallback]

lemma ui_key_other_step (t : List Char) (key : Nat) (hk : key ≠ VK_BACK) :
    dispatch (uiShape t) (Event.keyDown key) = uiShape t := by
  simp [dispatch, containerOnKeyDown, firstFocusedIdx, uiShape, newControl,
    Control.onKeyDownV, hk, runCallback]

/-- Any sequence of keyboard edits keeps the UI in a `uiShape` state. -/
lemma ui_run_shape :
    ∀ (es : List Event) (t : List Char), (∀ e ∈ es, isEdit e = true) →
      ∃ t', run (uiShape t) es = uiShape t' := by
  intro es
  induction es with
  | nil => exact fun t _ => ⟨t, rfl⟩
  | cons e es ih =>
      intro t hall
      have he : isEdit e = true := hall e (List.mem_cons_self e es)
      have hrest : ∀ e' ∈ es, isEdit e' = true :=
        fun e' h => hall e' (List.mem_cons_of_mem e h)
      cases e with
      | move x y => exact Bool.noConfusion he
      | down x y => exact Bool.noConfusion he
      | up => exact Bool.noConfusion he
      | char ch =>
          by_cases hch : ch = backspaceChar
          · subst hch
            simp only [run, List.foldl_cons]
            rw [ui_char_bs_step t]
            exact ih t hrest
          · simp only [run, List.foldl_cons]
            rw [show dispatch (uiShape t) (Event.char ch) = uiShape (t ++ [ch])
                from ui_char_step t ch hch]
            exact ih (t ++ [ch]) hrest
      | keyDown key =>
          by_cases hk : key = VK_BACK
          · subst hk
            by_cases ht : t = []
            · subst ht
              simp only [run, List.foldl_cons]
              rw [ui_key_back_empty_step]
              exact ih [] hrest
            · simp only [run, List.foldl_cons]
              rw [show dispatch (uiShape t) (Event.keyDown VK_BACK)
                  = uiShape t.dropLast from ui_key_back_step t ht]
              exact ih t.dropLast hrest
          · simp only [run, List.foldl_cons]
            rw [show dispatch (uiShape t) (Event.keyDown key) = uiShape t
                from ui_key_other_step t key hk]
            exact ih t hrest

/-- Counterexample to C1's backspace scenario as stated: after typing
'c','a','t' and one backspace, the TextBox holds "ca" and the Label shows
"ac" (the reverse of the TextBox text), not "at" (the spec applied the
backspace to the Label's text "tac" instead of the TextBox's "cat"). -/
theorem reverse_ui_counterexample :
    (ctl (run uiFocused [Event.char 'c', Event.char 'a', Event.char 't',
        Event.keyDown VK_BACK]) 1).text ≠ ['a', 't'] := by
  decide

/-- C1 (amended): with the `UserInterface` wiring (TextBox change callback
writes the reversed TextBox text into the Label), after clicking the TextBox
and then applying any sequence of character / backspace edits, the Label's
text is the reverse of the TextBox's text; in particular typing 'c','a','t'
leaves the Label showing "tac", and one further backspace leaves the TextBox
holding "ca" and the Label showing "ac". -/
theorem reverse_ui_spec (es : List Event) (hes : ∀ e ∈ es, isEdit e = true) :
    (ctl (run uiFocused es) 1).text = (ctl (run uiFocused es) 0).text.reverse
    ∧ (ctl (run uiFocused [Event.char 'c', Event.char 'a', Event.char 't']) 1).text
        = ['t', 'a', 'c']
    ∧ (ctl (run uiFocused [Event.char 'c', Event.char 'a', Event.char 't',
        Event.keyDown VK_BACK]) 0).text = ['c', 'a']
    ∧ (ctl (run uiFocused [Event.char 'c', Event.char 'a', Event.char 't',
        Event.keyDown VK_BACK]) 1).text = ['a', 'c'] := by
  have huif : uiFocused = uiShape [] := by decide
  refine ⟨?_, by decide, by decide, by decide⟩
  obtain ⟨t', ht'⟩ := ui_run_shape es [] hes
  rw [huif, ht']
  simp [uiShape, ctl, newControl]

/-- Witness for C1 at the one-character edit sequence. -/
theorem reverse_ui_spec_witness :
    (ctl (run uiFocused [Event.char 'c']) 1).text
      = (ctl (run uiFocused [Event.char 'c']) 0).text.reverse :=
  (reverse_ui_spec [Event.char 'c'] (by decide)).1
